import Mathlib

/-!
Shallow embedding of `scripts/download_models.py` (Krita AI Diffusion model
download utility): the resource catalog filter in `main`, the per-file
existence/size check and fetch in `download`, and the CLI wiring in the
`__main__` block.  File-system paths are lists of components; the network
is a pure oracle mapping URLs to HEAD outcomes and GET responses; the
side effects of a run (prints, HTTP requests, directory creation, file
writes) are recorded as an event trace.
-/

set_option autoImplicit false

namespace DLM

/-- Model family, mirroring `SDVersion` from `ai_diffusion.resources`
(that module is outside the script; only the two families the script
tests for are distinguished, everything else is `all`). -/
inductive SDVersion where
  | sd15
  | sdxl
  | all
deriving DecidableEq

/-- Resource category, mirroring `ResourceKind` from `ai_diffusion.resources`
(only the kinds the script tests for are distinguished). -/
inductive ResourceKind where
  | checkpoint
  | controlnet
  | upscaler
  | preprocessor
  | other
deriving DecidableEq

/-- One catalog entry: `resources.ModelResource` with the fields the script
reads (`name`, `kind`, `sd_version`, and the ordered `files` mapping from
relative destination path to source URL). Paths are component lists. -/
structure ModelResource where
  name : String
  kind : ResourceKind
  sd_version : SDVersion
  files : List (List String × String)
deriving DecidableEq

/-- The keyword arguments `main` receives (the `DownloadConfig` of the spec).
`destination` is the target directory as a component list. -/
structure Config where
  destination : List String
  verbose : Bool
  dry_run : Bool
  no_sd15 : Bool
  no_sdxl : Bool
  no_upscalers : Bool
  no_checkpoints : Bool
  no_controlnet : Bool
  prefetch : Bool
  minimal : Bool
  no_head_request : Bool
deriving DecidableEq

/-- The parsed command-line arguments (the `args` namespace in `__main__`):
same fields as `Config`. -/
structure Args where
  destination : List String
  verbose : Bool
  dry_run : Bool
  no_sd15 : Bool
  no_sdxl : Bool
  no_upscalers : Bool
  no_checkpoints : Bool
  no_controlnet : Bool
  prefetch : Bool
  minimal : Bool
  no_head_request : Bool
deriving DecidableEq

/-- Local file system state: existing regular files with their sizes
(`target_file.exists()` / `stat().st_size`), and existing directories. -/
structure FS where
  files : List (List String × Nat)
  dirs : List (List String)
deriving DecidableEq

/-- Size of an existing file, `none` when the path does not exist. -/
def FS.size? (fs : FS) (p : List String) : Option Nat :=
  fs.files.lookup p

/-- `open(target_file, "wb")` followed by writing the whole body: the file
now exists with the body's size. -/
def FS.writeFile (fs : FS) (p : List String) (sz : Nat) : FS :=
  { fs with files := (p, sz) :: fs.files }

/-- All prefixes of a directory path, from the root down to the path itself. -/
def dirChain (d : List String) : List (List String) :=
  (List.range (d.length + 1)).map fun k => d.take k

/-- `path.mkdir(exist_ok=True, parents=True)`: the directory and every
missing ancestor now exist. -/
def FS.mkdir_p (fs : FS) (d : List String) : FS :=
  { fs with dirs := dirChain d ++ fs.dirs }

/-- Outcome of the HEAD probe for a URL: `failure` covers both
`aiohttp.ClientResponseError` raised by `raise_for_status` and
`aiohttp.ServerTimeoutError`; `success` carries the optional
`Content-Length` header value. -/
inductive HeadOutcome where
  | failure
  | success (content_length : Option Nat)
deriving DecidableEq

/-- The GET response for a URL: whether `raise_for_status` passes,
the optional `Content-Length` header, and the body bytes. -/
structure GetResponse where
  ok : Bool
  content_length : Option Nat
  body : List Nat
deriving DecidableEq

/-- The network as a pure oracle: per-URL HEAD outcome and GET response. -/
structure Net where
  head : String → HeadOutcome
  get : String → GetResponse

/-- Exceptions the script can raise past `download`. -/
inductive PyError where
  | httpError (url : String)
  | typeError
deriving DecidableEq

/-- Observable side effects of a run. -/
inductive Event where
  | log (msg : String)
  | headRequest (url : String)
  | getRequest (url : String)
  | mkdirParents (dir : List String)
  | fileWrite (path : List String) (body : List Nat)
deriving DecidableEq

def lookingMsg (target : List String) : String :=
  "Looking for " ++ String.intercalate "/" target

def headFailMsg (name : String) : String :=
  name ++ ": HEAD request failed, falling back to GET request"

def sizeMatchMsg (name : String) : String :=
  name ++ ": Found - Local file size matches server's - skipping"

def sizeDifferMsg (name : String) : String :=
  name ++ ": Found - Local file size differs from server's - downloading"

def noLengthMsg (name : String) : String :=
  name ++ ": Found - Could not retrieve Content-Length from server - downloading"

def downloadingMsg (url : String) : String :=
  "Downloading " ++ url

/-- The inner helper `is_size_equal(content_length, target_file)` of
`download`: compares `int(content_length)` with the local file size and
prints. `int(None)` raises `TypeError`, so a `none` argument is an error.
Returns the boolean result together with the lines printed. -/
def is_size_equal (verbose : Bool) (name : String) (content_length : Option Nat)
    (local_file_size : Nat) : Except PyError (Bool × List Event) :=
  match content_length with
  | none => .error .typeError
  | some n =>
    if n = local_file_size then
      .ok (true, [.log (sizeMatchMsg name)])
    else if verbose then
      .ok (false, [.log (sizeDifferMsg name)])
    else
      .ok (false, [])

/-- Result of the HEAD-probe phase of `download` for one file: the file is
skipped (`continue`), or control proceeds to the GET with the
`compared_size` flag, or an exception propagates. -/
inductive HeadPhase where
  | skip (events : List Event)
  | proceed (events : List Event) (compared_size : Bool)
  | fail (events : List Event) (e : PyError)
deriving DecidableEq

/-- The `if target_file.exists() and not no_head_request:` block of
`download`: issue the HEAD probe on its own client, fall back on failure,
and when a `Content-Length` arrives set `compared_size` and call
`is_size_equal`, skipping the file on a match. -/
def headPhase (cfg : Config) (net : Net) (name : String) (fs : FS)
    (target : List String) (url : String) : HeadPhase :=
  match fs.size? target with
  | none => .proceed [] false
  | some local_file_size =>
    if cfg.no_head_request then .proceed [] false
    else
      match net.head url with
      | .failure =>
        .proceed (.headRequest url ::
          (if cfg.verbose then [.log (headFailMsg name)] else [])) false
      | .success none => .proceed [.headRequest url] false
      | .success (some n) =>
        match is_size_equal cfg.verbose name (some n) local_file_size with
        | .error e => .fail [.headRequest url] e
        | .ok (true, evs) => .skip (.headRequest url :: evs)
        | .ok (false, evs) => .proceed (.headRequest url :: evs) true

/-- Result of processing: accumulated events, resulting file system, and
the exception that escaped, if any. -/
structure Outcome where
  events : List Event
  fs : FS
  err : Option PyError
deriving DecidableEq

/-- The tail of the loop body of `download` once the check has decided to
download: `print(f"Downloading {url}")`, then unless `dry_run` create the
target's parent directories and stream the body to the file. -/
def finishDownload (cfg : Config) (target : List String) (url : String)
    (resp : GetResponse) (ev : List Event) (fs : FS) : Outcome :=
  let ev := ev ++ [.log (downloadingMsg url)]
  if cfg.dry_run then ⟨ev, fs, none⟩
  else
    ⟨ev ++ [.mkdirParents target.dropLast, .fileWrite target resp.body],
      (fs.mkdir_p target.dropLast).writeFile target resp.body.length, none⟩

/-- One iteration of the `for filepath, url in model.files.items():` loop of
`download`: the HEAD phase, then the GET with `raise_for_status`, the
re-check of the size against the GET headers when the HEAD did not compare
it, and the fetch. -/
def downloadFile (cfg : Config) (net : Net) (name : String) (fs : FS)
    (filepath : List String) (url : String) : Outcome :=
  let target := cfg.destination ++ filepath
  let ev0 : List Event := if cfg.verbose then [.log (lookingMsg target)] else []
  match headPhase cfg net name fs target url with
  | .skip evs => ⟨ev0 ++ evs, fs, none⟩
  | .fail evs e => ⟨ev0 ++ evs, fs, some e⟩
  | .proceed evs compared_size =>
    let resp := net.get url
    let ev1 := ev0 ++ evs ++ [.getRequest url]
    if !resp.ok then ⟨ev1, fs, some (.httpError url)⟩
    else
      match fs.size? target, compared_size with
      | some local_file_size, false =>
        if cfg.verbose && resp.content_length == none then
          finishDownload cfg target url resp (ev1 ++ [.log (noLengthMsg name)]) fs
        else
          match is_size_equal cfg.verbose name resp.content_length local_file_size with
          | .error e => ⟨ev1, fs, some e⟩
          | .ok (true, evs2) => ⟨ev1 ++ evs2, fs, none⟩
          | .ok (false, evs2) => finishDownload cfg target url resp (ev1 ++ evs2) fs
      | _, _ => finishDownload cfg target url resp ev1 fs

/-- The whole file loop of `download` for one model: files are processed in
order, an exception aborts the remaining files. -/
def runFiles (cfg : Config) (net : Net) (name : String) :
    List (List String × String) → FS → Outcome
  | [], fs => ⟨[], fs, none⟩
  | (filepath, url) :: rest, fs =>
    let o := downloadFile cfg net name fs filepath url
    match o.err with
    | some _ => o
    | none =>
      let o2 := runFiles cfg net name rest o.fs
      ⟨o.events ++ o2.events, o2.fs, o2.err⟩

/-- `download(client, model, destination, verbose, dry_run, no_head_request)`. -/
def download (cfg : Config) (net : Net) (m : ModelResource) (fs : FS) : Outcome :=
  runFiles cfg net m.name m.files fs

/-- The exclusion condition of the `for model in models:` loop of `main`:
a model is skipped (`continue`) exactly when one of the six disjuncts
holds. -/
def excluded (cfg : Config) (m : ModelResource) : Bool :=
  (cfg.no_sd15 && m.sd_version == .sd15)
    || (cfg.no_sdxl && m.sd_version == .sdxl)
    || (cfg.no_controlnet && m.kind == .controlnet)
    || (cfg.no_upscalers && m.kind == .upscaler)
    || (cfg.no_checkpoints && m.kind == .checkpoint)
    || (!cfg.prefetch && m.kind == .preprocessor)

/-- The ordered subsequence of the catalog that `main` actually processes:
the loop `continue`s on `excluded`, so the processed models are the
filtered list. -/
def selectedModels (cfg : Config) (models : List ModelResource) : List ModelResource :=
  models.filter fun m => !excluded cfg m

def newlineName (name : String) : String :=
  "\n" ++ name

/-- The `for model in models:` loop of `main`: skip excluded models, print
the model header when verbose, and `await download(...)`; an exception
aborts the remaining models. -/
def runModels (cfg : Config) (net : Net) : List ModelResource → FS → Outcome
  | [], fs => ⟨[], fs, none⟩
  | m :: rest, fs =>
    if excluded cfg m then runModels cfg net rest fs
    else
      let hdr : List Event := if cfg.verbose then [.log (newlineName m.name)] else []
      let o := download cfg net m fs
      match o.err with
      | some e => ⟨hdr ++ o.events, o.fs, some e⟩
      | none =>
        let o2 := runModels cfg net rest o.fs
        ⟨hdr ++ o.events ++ o2.events, o2.fs, o2.err⟩

/-- The static resource catalog of `ai_diffusion.resources`, which is not
part of the script: `required_models`, `default_checkpoints` and the result
of `all_models()` are abstract lists of entries. -/
structure Catalog where
  required_list : List ModelResource
  default_checkpoints : List ModelResource
  all_list : List ModelResource

/-- `required_models()` of the script:
`chain(resources.required_models, islice(resources.default_checkpoints, 1))`. -/
def required_models (required_list default_checkpoints : List ModelResource) :
    List ModelResource :=
  required_list ++ default_checkpoints.take 1

/-- `models = required_models() if minimal else all_models()` in `main`. -/
def mainModels (cat : Catalog) (minimal : Bool) : List ModelResource :=
  if minimal then required_models cat.required_list cat.default_checkpoints
  else cat.all_list

/-- `main(destination, ...)`: forces `verbose = verbose or dry_run`, picks
the model list, and runs the loop. (The constant banner line printed first
uses a version string from outside the script and is not recorded.) -/
def mainRun (cfg : Config) (net : Net) (cat : Catalog) (fs : FS) : Outcome :=
  let cfg' := { cfg with verbose := cfg.verbose || cfg.dry_run }
  runModels cfg' net (mainModels cat cfg.minimal) fs

/-- The configuration `main` effectively receives from the `__main__` block:
`args.no_sdxl = args.no_sdxl or args.minimal` is applied first, and the call
`main(args.destination, args.verbose, args.dry_run, args.no_sd15,
args.no_sdxl, args.no_upscalers, args.no_checkpoints, args.no_controlnet,
args.prefetch, args.minimal)` passes ten positional arguments and omits
`args.no_head_request`, so the parameter keeps its default `False`. -/
def cliConfig (args : Args) : Config :=
  { destination := args.destination
    verbose := args.verbose
    dry_run := args.dry_run
    no_sd15 := args.no_sd15
    no_sdxl := args.no_sdxl || args.minimal
    no_upscalers := args.no_upscalers
    no_checkpoints := args.no_checkpoints
    no_controlnet := args.no_controlnet
    prefetch := args.prefetch
    minimal := args.minimal
    no_head_request := false }

/-- The whole program: parse arguments, apply the `no_sdxl` forcing, run
`main`. -/
def cliRun (args : Args) (net : Net) (cat : Catalog) (fs : FS) : Outcome :=
  mainRun (cliConfig args) net cat fs

/-- Events that change the file system (directory creation and file writes):
exactly what the `if not dry_run:` block of `download` produces. -/
def Event.isFsChange : Event → Bool
  | .mkdirParents _ => true
  | .fileWrite _ _ => true
  | _ => false

/-- Print events. -/
def Event.isLog : Event → Bool
  | .log _ => true
  | _ => false

/-- Events the pre-GET phase can produce: HEAD probes and prints only. -/
def Event.isProbeOrLog : Event → Bool
  | .log _ => true
  | .headRequest _ => true
  | _ => false

/-- The event list a `HeadPhase` result carries. -/
def HeadPhase.events : HeadPhase → List Event
  | .skip evs => evs
  | .proceed evs _ => evs
  | .fail evs _ => evs

/-- A required (non-checkpoint) catalog entry, for concrete runs. -/
def mresRequired : ModelResource := ⟨"required-model", .other, .all, []⟩

/-- A default checkpoint catalog entry, for concrete runs. -/
def mresCkpt : ModelResource :=
  ⟨"default-checkpoint", .checkpoint, .sd15, [(["ckpt.safetensors"], "http://cdn/ckpt")]⟩

/-- A further checkpoint entry, for concrete runs. -/
def mresExtra : ModelResource := ⟨"extra", .checkpoint, .sdxl, []⟩

/-- A concrete catalog with one required entry and two default checkpoints. -/
def catEx : Catalog :=
  ⟨[mresRequired], [mresCkpt, mresExtra], [mresRequired, mresCkpt, mresExtra]⟩

/-- Command line `destination -m`. -/
def argsMinimal : Args :=
  ⟨["d"], false, false, false, false, false, false, false, false, true, false⟩

/-- A configuration with destination directory `d` and every flag off. -/
def cfgPlain : Config :=
  ⟨["d"], false, false, false, false, false, false, false, false, false, false⟩

/-- A file system where `d/x.bin` exists with size 100. -/
def fsX : FS := ⟨[(["d", "x.bin"], 100)], [["d"]]⟩

/-- A server that declares size 100 on HEAD and on GET. -/
def netEq : Net := ⟨fun _ => .success (some 100), fun _ => ⟨true, some 100, [7, 7]⟩⟩

/-- A server that declares size 50 on HEAD but 100 on GET (the GET header
matches the local size of `d/x.bin`, the HEAD header does not). -/
def netDiff : Net := ⟨fun _ => .success (some 50), fun _ => ⟨true, some 100, [7, 7]⟩⟩

/-- Command line `d --no-head-request`. -/
def argsNoHead : Args :=
  ⟨["d"], false, false, false, false, false, false, false, false, false, true⟩

/-- Command line `d` with no flags. -/
def argsPlain : Args :=
  ⟨["d"], false, false, false, false, false, false, false, false, false, false⟩

/-- A one-model catalog: model `X` with the single file `x.bin`. -/
def mresX : ModelResource := ⟨"X", .other, .all, [(["x.bin"], "http://u/x")]⟩

/-- The catalog holding only `X`. -/
def catX : Catalog := ⟨[mresX], [], [mresX]⟩

/-- A server whose HEAD probe fails and whose GET succeeds without a
Content-Length header. -/
def netNoLen : Net := ⟨fun _ => .failure, fun _ => ⟨true, none, [7, 7]⟩⟩

/-- A configuration with destination `d`, dry-run on, everything else off. -/
def cfgDry : Config :=
  ⟨["d"], false, true, false, false, false, false, false, false, false, false⟩

/-- A server whose HEAD probe fails and whose GET answers non-2xx. -/
def netGetBad : Net := ⟨fun _ => .failure, fun _ => ⟨false, none, []⟩⟩

/-- A one-model catalog whose single file sits in a subdirectory. -/
def mresSub : ModelResource := ⟨"S", .other, .all, [(["sub", "x.bin"], "http://u/s")]⟩

/-- The catalog holding only `S`. -/
def catSub : Catalog := ⟨[mresSub], [], [mresSub]⟩

/-- C3: a resource is dropped by the filter iff one of the six exclusions
applies (`no_sd15`/sd15, `no_sdxl`/sdxl, `no_controlnet`/controlnet,
`no_upscalers`/upscaler, `no_checkpoints`/checkpoint, preprocessor without
`prefetch`); every resource not excluded appears exactly as often as in the
catalog (once, for a catalog without duplicates), and the output is an
ordered subsequence of the catalog. -/
theorem C3_filter_iff_and_order (cfg : Config) (models : List ModelResource)
    (m : ModelResource) :
    (excluded cfg m = true ↔
        ((cfg.no_sd15 = true ∧ m.sd_version = .sd15)
          ∨ (cfg.no_sdxl = true ∧ m.sd_version = .sdxl)
          ∨ (cfg.no_controlnet = true ∧ m.kind = .controlnet)
          ∨ (cfg.no_upscalers = true ∧ m.kind = .upscaler)
          ∨ (cfg.no_checkpoints = true ∧ m.kind = .checkpoint)
          ∨ (cfg.prefetch = false ∧ m.kind = .preprocessor)))
      ∧ (m ∈ selectedModels cfg models ↔ m ∈ models ∧ excluded cfg m = false)
      ∧ (selectedModels cfg models).count m
          = (if excluded cfg m = true then 0 else models.count m)
      ∧ List.Sublist (selectedModels cfg models) models := by
  refine ⟨?_, ?_, ?_, List.filter_sublist _⟩
  · simp [excluded, Bool.or_eq_true, Bool.and_eq_true, beq_iff_eq,
      Bool.not_eq_true']
    tauto
  · simp [selectedModels, List.mem_filter, Bool.not_eq_true']
  · by_cases h : excluded cfg m = true
    · simp only [h, if_true]
      refine List.count_eq_zero.mpr fun hm => ?_
      simp [selectedModels, List.mem_filter, h] at hm
    · simp only [h, if_false]
      exact List.count_filter (by simp [Bool.not_eq_true] at h; simp [h])

/-- C5: with `minimal` set, the processed catalog is the required entries
plus the first default checkpoint (exactly one, the default checkpoint list
being nonempty), and the CLI forces `no_sdxl` on. -/
theorem C5_minimal_restricts_and_forces (args : Args) (cat : Catalog)
    (hm : args.minimal = true) (hd : cat.default_checkpoints ≠ []) :
    mainModels cat (cliConfig args).minimal
        = cat.required_list ++ cat.default_checkpoints.take 1
      ∧ (cat.default_checkpoints.take 1).length = 1
      ∧ (cliConfig args).no_sdxl = true := by
  refine ⟨?_, ?_, ?_⟩
  · simp [mainModels, cliConfig, hm, required_models]
  · rw [List.length_take]
    have := List.length_pos.mpr hd
    omega
  · simp [cliConfig, hm]

/-- Witness for C5 at a concrete command line and catalog. -/
theorem C5_minimal_restricts_and_forces_witness :
    argsMinimal.minimal = true ∧ catEx.default_checkpoints ≠ [] ∧
      (mainModels catEx (cliConfig argsMinimal).minimal
          = catEx.required_list ++ catEx.default_checkpoints.take 1
        ∧ (catEx.default_checkpoints.take 1).length = 1
        ∧ (cliConfig argsMinimal).no_sdxl = true) :=
  ⟨rfl, List.cons_ne_nil _ _,
    C5_minimal_restricts_and_forces argsMinimal catEx rfl (List.cons_ne_nil _ _)⟩

/-- C4: when the destination file exists and the HEAD probe succeeds with a
Content-Length equal to the local size, the check logs the skip message, no
GET request is issued, nothing is written, the file system is unchanged and
no error is raised. -/
theorem C4_head_match_skips (cfg : Config) (net : Net) (name : String) (fs : FS)
    (filepath : List String) (url : String) (sz : Nat)
    (hex : fs.size? (cfg.destination ++ filepath) = some sz)
    (hnh : cfg.no_head_request = false)
    (hhead : net.head url = .success (some sz)) :
    Event.log (sizeMatchMsg name) ∈ (downloadFile cfg net name fs filepath url).events
      ∧ (∀ u, Event.getRequest u ∉ (downloadFile cfg net name fs filepath url).events)
      ∧ (∀ p b, Event.fileWrite p b ∉ (downloadFile cfg net name fs filepath url).events)
      ∧ (downloadFile cfg net name fs filepath url).fs = fs
      ∧ (downloadFile cfg net name fs filepath url).err = none := by
  have hdl : downloadFile cfg net name fs filepath url =
      ⟨(if cfg.verbose then [.log (lookingMsg (cfg.destination ++ filepath))] else [])
        ++ [.headRequest url, .log (sizeMatchMsg name)], fs, none⟩ := by
    simp [downloadFile, headPhase, hex, hnh, hhead, is_size_equal]
  rw [hdl]
  cases cfg.verbose <;> simp

/-- C9: when the HEAD probe succeeds with a Content-Length different from
the local file size, the GET response's Content-Length is never consulted:
the file is downloaded and overwritten whatever that header holds (in
particular when it equals the local size). -/
theorem C9_head_differs_get_not_compared (cfg : Config) (net : Net) (name : String)
    (fs : FS) (filepath : List String) (url : String) (sz n : Nat)
    (hex : fs.size? (cfg.destination ++ filepath) = some sz)
    (hnh : cfg.no_head_request = false)
    (hhead : net.head url = .success (some n))
    (hne : n ≠ sz)
    (hok : (net.get url).ok = true)
    (hdry : cfg.dry_run = false) :
    downloadFile cfg net name fs filepath url =
      ⟨(if cfg.verbose then [.log (lookingMsg (cfg.destination ++ filepath))] else [])
        ++ .headRequest url
          :: (if cfg.verbose then [.log (sizeDifferMsg name)] else [])
        ++ [.getRequest url, .log (downloadingMsg url),
            .mkdirParents (cfg.destination ++ filepath).dropLast,
            .fileWrite (cfg.destination ++ filepath) (net.get url).body],
        (fs.mkdir_p (cfg.destination ++ filepath).dropLast).writeFile
          (cfg.destination ++ filepath) (net.get url).body.length, none⟩
      ∧ (downloadFile cfg net name fs filepath url).fs.size?
          (cfg.destination ++ filepath) = some (net.get url).body.length := by
  have hdl : downloadFile cfg net name fs filepath url =
      ⟨(if cfg.verbose then [.log (lookingMsg (cfg.destination ++ filepath))] else [])
        ++ .headRequest url
          :: (if cfg.verbose then [.log (sizeDifferMsg name)] else [])
        ++ [.getRequest url, .log (downloadingMsg url),
            .mkdirParents (cfg.destination ++ filepath).dropLast,
            .fileWrite (cfg.destination ++ filepath) (net.get url).body],
        (fs.mkdir_p (cfg.destination ++ filepath).dropLast).writeFile
          (cfg.destination ++ filepath) (net.get url).body.length, none⟩ := by
    cases hv : cfg.verbose <;>
      simp [downloadFile, headPhase, hex, hnh, hhead, is_size_equal, hne,
        finishDownload, hok, hdry, hv]
  refine ⟨hdl, ?_⟩
  rw [hdl]
  simp [FS.size?, FS.writeFile, FS.mkdir_p, List.lookup]

/-- Witness for C4 at a concrete file, server and file system. -/
theorem C4_head_match_skips_witness :
    fsX.size? (cfgPlain.destination ++ ["x.bin"]) = some 100
      ∧ cfgPlain.no_head_request = false
      ∧ netEq.head "http://u/x" = .success (some 100)
      ∧ (Event.log (sizeMatchMsg "X")
            ∈ (downloadFile cfgPlain netEq "X" fsX ["x.bin"] "http://u/x").events
        ∧ (∀ u, Event.getRequest u
            ∉ (downloadFile cfgPlain netEq "X" fsX ["x.bin"] "http://u/x").events)
        ∧ (∀ p b, Event.fileWrite p b
            ∉ (downloadFile cfgPlain netEq "X" fsX ["x.bin"] "http://u/x").events)
        ∧ (downloadFile cfgPlain netEq "X" fsX ["x.bin"] "http://u/x").fs = fsX
        ∧ (downloadFile cfgPlain netEq "X" fsX ["x.bin"] "http://u/x").err = none) :=
  ⟨rfl, rfl, rfl,
    C4_head_match_skips cfgPlain netEq "X" fsX ["x.bin"] "http://u/x" 100 rfl rfl rfl⟩

/-- Witness for C9: the GET declares exactly the local size (100), yet the
file is overwritten with the GET body because the HEAD size (50) differed. -/
theorem C9_head_differs_get_not_compared_witness :
    fsX.size? (cfgPlain.destination ++ ["x.bin"]) = some 100
      ∧ cfgPlain.no_head_request = false
      ∧ netDiff.head "http://u/x" = .success (some 50)
      ∧ (50 : Nat) ≠ 100
      ∧ (netDiff.get "http://u/x").ok = true
      ∧ cfgPlain.dry_run = false
      ∧ (netDiff.get "http://u/x").content_length = some 100
      ∧ (downloadFile cfgPlain netDiff "X" fsX ["x.bin"] "http://u/x").fs.size?
          (cfgPlain.destination ++ ["x.bin"])
          = some (netDiff.get "http://u/x").body.length :=
  ⟨rfl, rfl, rfl, by decide, rfl, rfl, rfl,
    (C9_head_differs_get_not_compared cfgPlain netDiff "X" fsX ["x.bin"] "http://u/x"
      100 50 rfl rfl rfl (by decide) rfl rfl).2⟩

/-- C1, evaluated at the failing input: with `--no-head-request` on the
command line and the destination file already present, the configuration
`main` receives still has `no_head_request = False` (the `__main__` call
omits the argument), and a HEAD probe is issued anyway. -/
theorem C1_flag_not_forwarded :
    (cliConfig argsNoHead).no_head_request = false
      ∧ Event.headRequest "http://u/x" ∈ (cliRun argsNoHead netEq catX fsX).events := by
  exact ⟨rfl, by decide⟩

/-- C2, evaluated at the failing input: destination file present, HEAD
probe fails, GET succeeds without Content-Length, verbose off. The run
reaches `is_size_equal(None, ...)`, where `int(None)` raises `TypeError`:
nothing is downloaded and the error escapes, instead of the promised
"always download". -/
theorem C2_missing_length_raises :
    cliRun argsPlain netNoLen catX fsX =
      ⟨[.headRequest "http://u/x", .getRequest "http://u/x"], fsX,
        some PyError.typeError⟩ := by
  decide

/-- The prints of `is_size_equal` are log lines. -/
theorem is_size_equal_ok_events {v : Bool} {nm : String} {cl : Option Nat}
    {lfs : Nat} {b : Bool} {evs : List Event}
    (h : is_size_equal v nm cl lfs = .ok (b, evs)) :
    ∀ e ∈ evs, e.isProbeOrLog = true := by
  rcases cl with _ | n
  · simp [is_size_equal] at h
  · by_cases hn : n = lfs
    · simp [is_size_equal, hn] at h
      obtain ⟨-, hevs⟩ := h
      subst hevs
      simp [Event.isProbeOrLog]
    · cases hv : v <;> simp [is_size_equal, hn, hv] at h <;>
        obtain ⟨-, hevs⟩ := h <;> subst hevs <;> simp [Event.isProbeOrLog]

/-- The HEAD phase issues only probes and prints. -/
theorem headPhase_events_probeOrLog (cfg : Config) (net : Net) (name : String)
    (fs : FS) (target : List String) (url : String) :
    ∀ e ∈ (headPhase cfg net name fs target url).events, e.isProbeOrLog = true := by
  rcases h1 : fs.size? target with _ | sz
  · simp [headPhase, h1, HeadPhase.events]
  · cases h2 : cfg.no_head_request
    · rcases h3 : net.head url with _ | ⟨_ | n⟩
      · cases hv : cfg.verbose <;>
          simp [headPhase, h1, h2, h3, hv, HeadPhase.events, Event.isProbeOrLog]
      · simp [headPhase, h1, h2, h3, HeadPhase.events, Event.isProbeOrLog]
      · rcases h4 : is_size_equal cfg.verbose name (some n) sz with e | ⟨b, evs⟩
        · simp [headPhase, h1, h2, h3, h4, HeadPhase.events, Event.isProbeOrLog]
        · have hb := is_size_equal_ok_events h4
          cases b <;>
          · intro e he
            simp [headPhase, h1, h2, h3, h4, HeadPhase.events] at he
            rcases he with rfl | he
            · simp [Event.isProbeOrLog]
            · exact hb e he
    · simp [headPhase, h1, h2, HeadPhase.events]

/-- Probe and log events do not change the file system. -/
theorem isProbeOrLog_not_fsChange {e : Event} (h : e.isProbeOrLog = true) :
    e.isFsChange = false := by
  cases e <;> simp_all [Event.isProbeOrLog, Event.isFsChange]

/-- Probe and log events are not GET requests. -/
theorem isProbeOrLog_ne_getRequest {e : Event} (h : e.isProbeOrLog = true)
    (u : String) : e ≠ .getRequest u := by
  cases e <;> simp_all [Event.isProbeOrLog]

/-- Probe and log events are not file writes. -/
theorem isProbeOrLog_ne_fileWrite {e : Event} (h : e.isProbeOrLog = true)
    (p : List String) (b : List Nat) : e ≠ .fileWrite p b := by
  cases e <;> simp_all [Event.isProbeOrLog]

/-- The looking-for print of `download` does not change the file system. -/
theorem ev0_fsChange (vb : Bool) (t : List String) :
    ∀ e ∈ (if vb then [Event.log (lookingMsg t)] else []), e.isFsChange = false := by
  cases vb <;> simp [Event.isFsChange]

/-- `finishDownload` under `dry_run` against the same call without it:
the dry trace is the real trace without the file-system events, errors
agree (none), the dry run leaves the file system alone, and the dry trace
keeps every event it was given. -/
theorem finishDownload_dry_vs_real (c1 c2 : Config) (target : List String)
    (url : String) (resp : GetResponse) (ev : List Event) (fs : FS)
    (h1 : c1.dry_run = true) (h2 : c2.dry_run = false)
    (hev : ∀ e ∈ ev, e.isFsChange = false) :
    (finishDownload c1 target url resp ev fs).events
        = ((finishDownload c2 target url resp ev fs).events.filter
            fun e => !e.isFsChange)
      ∧ (finishDownload c1 target url resp ev fs).err
          = (finishDownload c2 target url resp ev fs).err
      ∧ (finishDownload c1 target url resp ev fs).fs = fs
      ∧ ∀ x ∈ ev, x ∈ (finishDownload c1 target url resp ev fs).events := by
  have hflt : (ev.filter fun e => !e.isFsChange) = ev :=
    List.filter_eq_self.mpr fun a ha => by simp [hev a ha]
  have e1 : (finishDownload c1 target url resp ev fs).events
      = ev ++ [Event.log (downloadingMsg url)] := by
    simp [finishDownload, h1]
  have e2 : (finishDownload c2 target url resp ev fs).events
      = (ev ++ [Event.log (downloadingMsg url)])
        ++ [Event.mkdirParents target.dropLast, Event.fileWrite target resp.body] := by
    simp [finishDownload, h2]
  have hsm : List.filter (fun e => !e.isFsChange) [Event.log (downloadingMsg url)]
      = [Event.log (downloadingMsg url)] := by
    simp [Event.isFsChange]
  have hz : List.filter (fun e => !e.isFsChange)
      [Event.mkdirParents target.dropLast, Event.fileWrite target resp.body] = [] := by
    simp [Event.isFsChange]
  refine ⟨?_, ?_, ?_, ?_⟩
  · rw [e1, e2, List.filter_append, List.filter_append, hflt, hsm, hz, List.append_nil]
  · simp [finishDownload, h1, h2]
  · simp [finishDownload, h1]
  · intro x hx
    rw [e1]
    exact List.mem_append_left _ hx

/-- A list of file-system-neutral events is kept whole by the
`isFsChange` filter. -/
theorem filter_fsChange_of_benign {l : List Event}
    (h : ∀ e ∈ l, e.isFsChange = false) :
    (l.filter fun e => !e.isFsChange) = l :=
  List.filter_eq_self.mpr fun a ha => by simp [h a ha]

/-- The four dry-against-real facts for a pair of `finishDownload` calls
on the same inputs, packaged for the case analysis over `download`. -/
theorem finish_pair_outcome (c1 c2 : Config) (t : List String) (u : String)
    (r : GetResponse) (ev : List Event) (fs : FS)
    (h1 : c1.dry_run = true) (h2 : c2.dry_run = false)
    (hev : ∀ e ∈ ev, e.isFsChange = false) (hget : Event.getRequest u ∈ ev)
    (W : Event) :
    (finishDownload c1 t u r ev fs).events
        = ((finishDownload c2 t u r ev fs).events.filter fun e => !e.isFsChange)
      ∧ (finishDownload c1 t u r ev fs).err = (finishDownload c2 t u r ev fs).err
      ∧ (finishDownload c1 t u r ev fs).fs = fs
      ∧ (W ∈ (finishDownload c2 t u r ev fs).events
          → Event.getRequest u ∈ (finishDownload c1 t u r ev fs).events) := by
  obtain ⟨q1, q2, q3, q4⟩ := finishDownload_dry_vs_real c1 c2 t u r ev fs h1 h2 hev
  exact ⟨q1, q2, q3, fun _ => q4 _ hget⟩

/-- The per-file body of `download` under `dry_run` against the same call
without it: the dry trace is the real trace without the file-system events,
the same error escapes, the dry run leaves the file system alone, and
whenever the real run writes the file the dry run still issued the GET. -/
theorem downloadFile_dry_vs_real (cfg : Config) (net : Net) (name : String)
    (fs : FS) (filepath : List String) (url : String) (hdry : cfg.dry_run = true) :
    (downloadFile cfg net name fs filepath url).events
        = ((downloadFile { cfg with dry_run := false } net name fs
            filepath url).events.filter fun e => !e.isFsChange)
      ∧ (downloadFile cfg net name fs filepath url).err
          = (downloadFile { cfg with dry_run := false } net name fs filepath url).err
      ∧ (downloadFile cfg net name fs filepath url).fs = fs
      ∧ (Event.fileWrite (cfg.destination ++ filepath) (net.get url).body
            ∈ (downloadFile { cfg with dry_run := false } net name fs filepath url).events
          → Event.getRequest url
              ∈ (downloadFile cfg net name fs filepath url).events) := by
  obtain ⟨dest, vb, dr, n15, nxl, nup, nck, ncn, pf, mn, nhr⟩ := cfg
  have hdr : dr = true := hdry
  subst hdr
  have hben := headPhase_events_probeOrLog
    ⟨dest, vb, true, n15, nxl, nup, nck, ncn, pf, mn, nhr⟩ net name fs
    (dest ++ filepath) url
  have hsame : headPhase ⟨dest, vb, false, n15, nxl, nup, nck, ncn, pf, mn, nhr⟩
        net name fs (dest ++ filepath) url
      = headPhase ⟨dest, vb, true, n15, nxl, nup, nck, ncn, pf, mn, nhr⟩
        net name fs (dest ++ filepath) url := rfl
  rcases hp : headPhase ⟨dest, vb, true, n15, nxl, nup, nck, ncn, pf, mn, nhr⟩
      net name fs (dest ++ filepath) url with evs | ⟨evs, cs⟩ | ⟨evs, er⟩
  · rw [hp] at hben
    simp only [HeadPhase.events] at hben
    have hd : downloadFile ⟨dest, vb, true, n15, nxl, nup, nck, ncn, pf, mn, nhr⟩
          net name fs filepath url
        = ⟨(if vb = true then [Event.log (lookingMsg (dest ++ filepath))] else [])
            ++ evs, fs, none⟩ := by
      simp [downloadFile, hp]
    have hr : downloadFile ⟨dest, vb, false, n15, nxl, nup, nck, ncn, pf, mn, nhr⟩
          net name fs filepath url
        = ⟨(if vb = true then [Event.log (lookingMsg (dest ++ filepath))] else [])
            ++ evs, fs, none⟩ := by
      simp [downloadFile, hsame.trans hp]
    have hb : ∀ e ∈ (if vb = true then [Event.log (lookingMsg (dest ++ filepath))]
        else []) ++ evs, e.isFsChange = false := by
      intro e he
      rcases List.mem_append.mp he with h | h
      · exact ev0_fsChange vb _ e h
      · exact isProbeOrLog_not_fsChange (hben e h)
    rw [hd, hr]
    exact ⟨(filter_fsChange_of_benign hb).symm, rfl, rfl,
      fun hw => absurd (hb _ hw) (by simp [Event.isFsChange])⟩
  · rw [hp] at hben
    simp only [HeadPhase.events] at hben
    have hbx : ∀ tail : List Event, (∀ e ∈ tail, e.isFsChange = false) →
        ∀ e ∈ (if vb = true then [Event.log (lookingMsg (dest ++ filepath))] else [])
          ++ (evs ++ (Event.getRequest url :: tail)), e.isFsChange = false := by
      intro tail htail e he
      rcases List.mem_append.mp he with h | h
      · exact ev0_fsChange vb _ e h
      · rcases List.mem_append.mp h with h2 | h2
        · exact isProbeOrLog_not_fsChange (hben e h2)
        · rcases List.mem_cons.mp h2 with rfl | h3
          · simp [Event.isFsChange]
          · exact htail e h3
    cases hok : (net.get url).ok
    · have hd : downloadFile ⟨dest, vb, true, n15, nxl, nup, nck, ncn, pf, mn, nhr⟩
            net name fs filepath url
          = ⟨(if vb = true then [Event.log (lookingMsg (dest ++ filepath))] else [])
              ++ (evs ++ [Event.getRequest url]), fs, some (.httpError url)⟩ := by
        simp [downloadFile, hp, hok]
      have hr : downloadFile ⟨dest, vb, false, n15, nxl, nup, nck, ncn, pf, mn, nhr⟩
            net name fs filepath url
          = ⟨(if vb = true then [Event.log (lookingMsg (dest ++ filepath))] else [])
              ++ (evs ++ [Event.getRequest url]), fs, some (.httpError url)⟩ := by
        simp [downloadFile, hsame.trans hp, hok]
      have hb := hbx [] (by simp)
      rw [hd, hr]
      exact ⟨(filter_fsChange_of_benign hb).symm, rfl, rfl,
        fun hw => absurd (hb _ hw) (by simp [Event.isFsChange])⟩
    · have hget0 : Event.getRequest url
          ∈ (if vb = true then [Event.log (lookingMsg (dest ++ filepath))] else [])
            ++ (evs ++ [Event.getRequest url]) := by simp
      rcases hsz : fs.size? (dest ++ filepath) with _ | lfs
      · have hd : downloadFile ⟨dest, vb, true, n15, nxl, nup, nck, ncn, pf, mn, nhr⟩
              net name fs filepath url
            = finishDownload ⟨dest, vb, true, n15, nxl, nup, nck, ncn, pf, mn, nhr⟩
                (dest ++ filepath) url (net.get url)
                ((if vb = true then [Event.log (lookingMsg (dest ++ filepath))] else [])
                  ++ (evs ++ [Event.getRequest url])) fs := by
          simp [downloadFile, hp, hok, hsz]
        have hr : downloadFile ⟨dest, vb, false, n15, nxl, nup, nck, ncn, pf, mn, nhr⟩
              net name fs filepath url
            = finishDownload ⟨dest, vb, false, n15, nxl, nup, nck, ncn, pf, mn, nhr⟩
                (dest ++ filepath) url (net.get url)
                ((if vb = true then [Event.log (lookingMsg (dest ++ filepath))] else [])
                  ++ (evs ++ [Event.getRequest url])) fs := by
          simp [downloadFile, hsame.trans hp, hok, hsz]
        obtain ⟨q1, q2, q3, q4⟩ := finishDownload_dry_vs_real
          ⟨dest, vb, true, n15, nxl, nup, nck, ncn, pf, mn, nhr⟩
          ⟨dest, vb, false, n15, nxl, nup, nck, ncn, pf, mn, nhr⟩
          (dest ++ filepath) url (net.get url)
          ((if vb = true then [Event.log (lookingMsg (dest ++ filepath))] else [])
            ++ (evs ++ [Event.getRequest url])) fs rfl rfl (hbx [] (by simp))
        rw [hd, hr]
        exact ⟨q1, q2, q3, fun _ => q4 _ hget0⟩
      · cases cs
        · rcases hcl : (net.get url).content_length with _ | m
          · cases vb
            · have hd : downloadFile
                    ⟨dest, false, true, n15, nxl, nup, nck, ncn, pf, mn, nhr⟩
                    net name fs filepath url
                  = ⟨evs ++ [Event.getRequest url], fs, some .typeError⟩ := by
                simp [downloadFile, hp, hok, hsz, hcl, is_size_equal]
              have hr : downloadFile
                    ⟨dest, false, false, n15, nxl, nup, nck, ncn, pf, mn, nhr⟩
                    net name fs filepath url
                  = ⟨evs ++ [Event.getRequest url], fs, some .typeError⟩ := by
                simp [downloadFile, hsame.trans hp, hok, hsz, hcl, is_size_equal]
              have hb : ∀ e ∈ evs ++ [Event.getRequest url], e.isFsChange = false :=
                fun e he => hbx [] (by simp) e he
              rw [hd, hr]
              exact ⟨(filter_fsChange_of_benign hb).symm, rfl, rfl,
                fun hw => absurd (hb _ hw) (by simp [Event.isFsChange])⟩
            · have hd : downloadFile
                    ⟨dest, true, true, n15, nxl, nup, nck, ncn, pf, mn, nhr⟩
                    net name fs filepath url
                  = finishDownload
                      ⟨dest, true, true, n15, nxl, nup, nck, ncn, pf, mn, nhr⟩
                      (dest ++ filepath) url (net.get url)
                      (Event.log (lookingMsg (dest ++ filepath))
                        :: (evs ++ Event.getRequest url
                          :: [Event.log (noLengthMsg name)])) fs := by
                simp [downloadFile, hp, hok, hsz, hcl]
              have hr : downloadFile
                    ⟨dest, true, false, n15, nxl, nup, nck, ncn, pf, mn, nhr⟩
                    net name fs filepath url
                  = finishDownload
                      ⟨dest, true, false, n15, nxl, nup, nck, ncn, pf, mn, nhr⟩
                      (dest ++ filepath) url (net.get url)
                      (Event.log (lookingMsg (dest ++ filepath))
                        :: (evs ++ Event.getRequest url
                          :: [Event.log (noLengthMsg name)])) fs := by
                simp [downloadFile, hsame.trans hp, hok, hsz, hcl]
              rw [hd, hr]
              exact finish_pair_outcome _ _ _ _ _ _ _ rfl rfl
                (fun e he =>
                  hbx [Event.log (noLengthMsg name)]
                    (by simp [Event.isFsChange]) e he)
                (by simp) _
          · by_cases hm : m = lfs
            · have hd : downloadFile
                    ⟨dest, vb, true, n15, nxl, nup, nck, ncn, pf, mn, nhr⟩
                    net name fs filepath url
                  = ⟨(if vb = true then [Event.log (lookingMsg (dest ++ filepath))]
                        else [])
                      ++ (evs ++ Event.getRequest url
                        :: [Event.log (sizeMatchMsg name)]), fs, none⟩ := by
                simp [downloadFile, hp, hok, hsz, hcl, is_size_equal, hm]
              have hr : downloadFile
                    ⟨dest, vb, false, n15, nxl, nup, nck, ncn, pf, mn, nhr⟩
                    net name fs filepath url
                  = ⟨(if vb = true then [Event.log (lookingMsg (dest ++ filepath))]
                        else [])
                      ++ (evs ++ Event.getRequest url
                        :: [Event.log (sizeMatchMsg name)]), fs, none⟩ := by
                simp [downloadFile, hsame.trans hp, hok, hsz, hcl, is_size_equal, hm]
              have hb := hbx [Event.log (sizeMatchMsg name)]
                (by simp [Event.isFsChange])
              rw [hd, hr]
              exact ⟨(filter_fsChange_of_benign hb).symm, rfl, rfl,
                fun hw => absurd (hb _ hw) (by simp [Event.isFsChange])⟩
            · cases vb
              · have hd : downloadFile
                      ⟨dest, false, true, n15, nxl, nup, nck, ncn, pf, mn, nhr⟩
                      net name fs filepath url
                    = finishDownload
                        ⟨dest, false, true, n15, nxl, nup, nck, ncn, pf, mn, nhr⟩
                        (dest ++ filepath) url (net.get url)
                        (evs ++ [Event.getRequest url]) fs := by
                  simp [downloadFile, hp, hok, hsz, hcl, is_size_equal, hm]
                have hr : downloadFile
                      ⟨dest, false, false, n15, nxl, nup, nck, ncn, pf, mn, nhr⟩
                      net name fs filepath url
                    = finishDownload
                        ⟨dest, false, false, n15, nxl, nup, nck, ncn, pf, mn, nhr⟩
                        (dest ++ filepath) url (net.get url)
                        (evs ++ [Event.getRequest url]) fs := by
                  simp [downloadFile, hsame.trans hp, hok, hsz, hcl, is_size_equal, hm]
                rw [hd, hr]
                exact finish_pair_outcome _ _ _ _ _ _ _ rfl rfl
                  (fun e he => hbx [] (by simp) e he) (by simp) _
              · have hd : downloadFile
                      ⟨dest, true, true, n15, nxl, nup, nck, ncn, pf, mn, nhr⟩
                      net name fs filepath url
                    = finishDownload
                        ⟨dest, true, true, n15, nxl, nup, nck, ncn, pf, mn, nhr⟩
                        (dest ++ filepath) url (net.get url)
                        (Event.log (lookingMsg (dest ++ filepath))
                          :: (evs ++ Event.getRequest url
                            :: [Event.log (sizeDifferMsg name)])) fs := by
                  simp [downloadFile, hp, hok, hsz, hcl, is_size_equal, hm]
                have hr : downloadFile
                      ⟨dest, true, false, n15, nxl, nup, nck, ncn, pf, mn, nhr⟩
                      net name fs filepath url
                    = finishDownload
                        ⟨dest, true, false, n15, nxl, nup, nck, ncn, pf, mn, nhr⟩
                        (dest ++ filepath) url (net.get url)
                        (Event.log (lookingMsg (dest ++ filepath))
                          :: (evs ++ Event.getRequest url
                            :: [Event.log (sizeDifferMsg name)])) fs := by
                  simp [downloadFile, hsame.trans hp, hok, hsz, hcl, is_size_equal, hm]
                rw [hd, hr]
                exact finish_pair_outcome _ _ _ _ _ _ _ rfl rfl
                  (fun e he =>
                    hbx [Event.log (sizeDifferMsg name)]
                      (by simp [Event.isFsChange]) e he)
                  (by simp) _
        · have hd : downloadFile ⟨dest, vb, true, n15, nxl, nup, nck, ncn, pf, mn, nhr⟩
                net name fs filepath url
              = finishDownload ⟨dest, vb, true, n15, nxl, nup, nck, ncn, pf, mn, nhr⟩
                  (dest ++ filepath) url (net.get url)
                  ((if vb = true then [Event.log (lookingMsg (dest ++ filepath))]
                      else [])
                    ++ (evs ++ [Event.getRequest url])) fs := by
            simp [downloadFile, hp, hok, hsz]
          have hr : downloadFile ⟨dest, vb, false, n15, nxl, nup, nck, ncn, pf, mn, nhr⟩
                net name fs filepath url
              = finishDownload ⟨dest, vb, false, n15, nxl, nup, nck, ncn, pf, mn, nhr⟩
                  (dest ++ filepath) url (net.get url)
                  ((if vb = true then [Event.log (lookingMsg (dest ++ filepath))]
                      else [])
                    ++ (evs ++ [Event.getRequest url])) fs := by
            simp [downloadFile, hsame.trans hp, hok, hsz]
          rw [hd, hr]
          exact finish_pair_outcome _ _ _ _ _ _ _ rfl rfl (hbx [] (by simp)) hget0 _
  · rw [hp] at hben
    simp only [HeadPhase.events] at hben
    have hd : downloadFile ⟨dest, vb, true, n15, nxl, nup, nck, ncn, pf, mn, nhr⟩
          net name fs filepath url
        = ⟨(if vb = true then [Event.log (lookingMsg (dest ++ filepath))] else [])
            ++ evs, fs, some er⟩ := by
      simp [downloadFile, hp]
    have hr : downloadFile ⟨dest, vb, false, n15, nxl, nup, nck, ncn, pf, mn, nhr⟩
          net name fs filepath url
        = ⟨(if vb = true then [Event.log (lookingMsg (dest ++ filepath))] else [])
            ++ evs, fs, some er⟩ := by
      simp [downloadFile, hsame.trans hp]
    have hb : ∀ e ∈ (if vb = true then [Event.log (lookingMsg (dest ++ filepath))]
        else []) ++ evs, e.isFsChange = false := by
      intro e he
      rcases List.mem_append.mp he with h | h
      · exact ev0_fsChange vb _ e h
      · exact isProbeOrLog_not_fsChange (hben e h)
    rw [hd, hr]
    exact ⟨(filter_fsChange_of_benign hb).symm, rfl, rfl,
      fun hw => absurd (hb _ hw) (by simp [Event.isFsChange])⟩

/-- Log events in an optional print are not file-system events. -/
theorem ite_log_fsChange (b : Bool) (msg : String) :
    ∀ e ∈ (if b = true then [Event.log msg] else []), e.isFsChange = false := by
  cases b <;> simp [Event.isFsChange]

/-- C10: in dry-run mode a file whose check decides a download still gets a
full GET: the dry trace is exactly the real trace minus the directory
creation and the body write, and whenever the real run writes the file the
dry run still issued the GET request. -/
theorem C10_dry_run_still_gets (cfg : Config) (net : Net) (name : String)
    (fs : FS) (filepath : List String) (url : String) (hdry : cfg.dry_run = true) :
    (downloadFile cfg net name fs filepath url).events
        = ((downloadFile { cfg with dry_run := false } net name fs
            filepath url).events.filter fun e => !e.isFsChange)
      ∧ (Event.fileWrite (cfg.destination ++ filepath) (net.get url).body
            ∈ (downloadFile { cfg with dry_run := false } net name fs
                filepath url).events
          → Event.getRequest url
              ∈ (downloadFile cfg net name fs filepath url).events) := by
  obtain ⟨q1, -, -, q4⟩ := downloadFile_dry_vs_real cfg net name fs filepath url hdry
  exact ⟨q1, q4⟩

/-- Witness for C10: dry run against a server whose HEAD size differs, so
the check decides to download; the real run writes, the dry run still GETs. -/
theorem C10_dry_run_still_gets_witness :
    cfgDry.dry_run = true
      ∧ ((downloadFile cfgDry netDiff "X" fsX ["x.bin"] "http://u/x").events
          = ((downloadFile { cfgDry with dry_run := false } netDiff "X" fsX
              ["x.bin"] "http://u/x").events.filter fun e => !e.isFsChange)
        ∧ (Event.fileWrite (cfgDry.destination ++ ["x.bin"])
              (netDiff.get "http://u/x").body
              ∈ (downloadFile { cfgDry with dry_run := false } netDiff "X" fsX
                  ["x.bin"] "http://u/x").events
            → Event.getRequest "http://u/x"
                ∈ (downloadFile cfgDry netDiff "X" fsX ["x.bin"] "http://u/x").events)) :=
  ⟨rfl, C10_dry_run_still_gets cfgDry netDiff "X" fsX ["x.bin"] "http://u/x" rfl⟩

/-- Under `dry_run` a single file leaves the file system untouched and
produces no file-system events. -/
theorem downloadFile_dry_fsfree (cfg : Config) (net : Net) (name : String)
    (fs : FS) (filepath : List String) (url : String) (hdry : cfg.dry_run = true) :
    (downloadFile cfg net name fs filepath url).fs = fs
      ∧ ∀ e ∈ (downloadFile cfg net name fs filepath url).events,
          e.isFsChange = false := by
  obtain ⟨q1, -, q3, -⟩ := downloadFile_dry_vs_real cfg net name fs filepath url hdry
  refine ⟨q3, ?_⟩
  intro e he
  rw [q1] at he
  simpa using List.of_mem_filter he

/-- Under `dry_run` the whole file loop of `download` leaves the file
system untouched and produces no file-system events. -/
theorem runFiles_dry (cfg : Config) (net : Net) (name : String)
    (files : List (List String × String)) (fs : FS) (hdry : cfg.dry_run = true) :
    (runFiles cfg net name files fs).fs = fs
      ∧ ∀ e ∈ (runFiles cfg net name files fs).events, e.isFsChange = false := by
  induction files generalizing fs with
  | nil => simp [runFiles]
  | cons f rest ih =>
    obtain ⟨fp, u⟩ := f
    obtain ⟨hfs, hev⟩ := downloadFile_dry_fsfree cfg net name fs fp u hdry
    cases he : (downloadFile cfg net name fs fp u).err with
    | some e =>
      constructor
      · simp [runFiles, he, hfs]
      · intro x hx
        simp [runFiles, he] at hx
        exact hev x hx
    | none =>
      obtain ⟨ihfs, ihev⟩ := ih ((downloadFile cfg net name fs fp u).fs)
      constructor
      · simp [runFiles, he, hfs, (ih fs).1]
      · intro x hx
        simp [runFiles, he] at hx
        rcases hx with h | h
        · exact hev x h
        · exact ihev x h

/-- Under `dry_run` the model loop of `main` leaves the file system
untouched and produces no file-system events. -/
theorem runModels_dry (cfg : Config) (net : Net) (models : List ModelResource)
    (fs : FS) (hdry : cfg.dry_run = true) :
    (runModels cfg net models fs).fs = fs
      ∧ ∀ e ∈ (runModels cfg net models fs).events, e.isFsChange = false := by
  induction models generalizing fs with
  | nil => simp [runModels]
  | cons m rest ih =>
    cases hex : excluded cfg m with
    | true => simpa [runModels, hex] using ih fs
    | false =>
      obtain ⟨hfs, hev⟩ := runFiles_dry cfg net m.name m.files fs hdry
      cases he : (runFiles cfg net m.name m.files fs).err with
      | some e =>
        cases hv : cfg.verbose with
        | true =>
          constructor
          · simpa [runModels, download, hex, he] using hfs
          · intro x hx
            simp [runModels, download, hex, he, hv] at hx
            rcases hx with rfl | h
            · simp [Event.isFsChange]
            · exact hev x h
        | false =>
          constructor
          · simpa [runModels, download, hex, he] using hfs
          · intro x hx
            simp [runModels, download, hex, he, hv] at hx
            exact hev x hx
      | none =>
        obtain ⟨ihfs, ihev⟩ := ih ((runFiles cfg net m.name m.files fs).fs)
        cases hv : cfg.verbose with
        | true =>
          constructor
          · simp [runModels, download, hex, he, hfs, (ih fs).1]
          · intro x hx
            simp [runModels, download, hex, he, hv] at hx
            rcases hx with rfl | h | h
            · simp [Event.isFsChange]
            · exact hev x h
            · exact ihev x h
        | false =>
          constructor
          · simp [runModels, download, hex, he, hfs, (ih fs).1]
          · intro x hx
            simp [runModels, download, hex, he, hv] at hx
            rcases hx with h | h
            · exact hev x h
            · exact ihev x h

/-- C6: in dry-run mode no bytes are written anywhere and the file system is
left unchanged, whatever the checks decide; the run is exactly `runModels`
with the verbose flag forced on; and per file the decision logging of a dry
run equals that of a real run. -/
theorem C6_dry_run_no_writes (cfg : Config) (net : Net) (cat : Catalog)
    (fs : FS) (name : String) (filepath : List String) (url : String)
    (hdry : cfg.dry_run = true) :
    (∀ p b, Event.fileWrite p b ∉ (mainRun cfg net cat fs).events)
      ∧ (mainRun cfg net cat fs).fs = fs
      ∧ mainRun cfg net cat fs
          = runModels { cfg with verbose := true } net (mainModels cat cfg.minimal) fs
      ∧ ((downloadFile cfg net name fs filepath url).events.filter Event.isLog)
          = ((downloadFile { cfg with dry_run := false } net name fs
              filepath url).events.filter Event.isLog) := by
  have hm : mainRun cfg net cat fs
      = runModels { cfg with verbose := true } net (mainModels cat cfg.minimal) fs := by
    simp [mainRun, hdry]
  have hdr : ({ cfg with verbose := true } : Config).dry_run = true := hdry
  obtain ⟨hfs, hev⟩ := runModels_dry { cfg with verbose := true } net
    (mainModels cat cfg.minimal) fs hdr
  refine ⟨?_, ?_, hm, ?_⟩
  · intro p b hw
    rw [hm] at hw
    have := hev _ hw
    simp [Event.isFsChange] at this
  · rw [hm]
    exact hfs
  · obtain ⟨q1, -, -, -⟩ := downloadFile_dry_vs_real cfg net name fs filepath url hdry
    rw [q1, List.filter_filter]
    exact List.filter_congr fun a _ => by
      cases a <;> simp [Event.isLog, Event.isFsChange]

/-- Witness for C6 at a concrete dry run. -/
theorem C6_dry_run_no_writes_witness :
    cfgDry.dry_run = true
      ∧ Event.fileWrite ["d", "x.bin"] [7, 7] ∉ (mainRun cfgDry netDiff catX fsX).events
      ∧ (mainRun cfgDry netDiff catX fsX).fs = fsX
      ∧ mainRun cfgDry netDiff catX fsX
          = runModels { cfgDry with verbose := true } netDiff
              (mainModels catX cfgDry.minimal) fsX
      ∧ ((downloadFile cfgDry netDiff "X" fsX ["x.bin"] "http://u/x").events.filter
            Event.isLog)
          = ((downloadFile { cfgDry with dry_run := false } netDiff "X" fsX
              ["x.bin"] "http://u/x").events.filter Event.isLog) := by
  obtain ⟨h1, h2, h3, h4⟩ := C6_dry_run_no_writes cfgDry netDiff catX fsX "X"
    ["x.bin"] "http://u/x" rfl
  exact ⟨rfl, h1 _ _, h2, h3, h4⟩

/-- Events handed to `finishDownload` stay in its trace. -/
theorem mem_finishDownload {ev : List Event} {x : Event} (hx : x ∈ ev)
    (cfg : Config) (t : List String) (u : String) (r : GetResponse) (fs : FS) :
    x ∈ (finishDownload cfg t u r ev fs).events := by
  cases hdr : cfg.dry_run <;> simp [finishDownload, hdr, hx]

/-- The HEAD phase never raises: `is_size_equal` is only called with an
actual Content-Length there. -/
theorem headPhase_ne_fail (cfg : Config) (net : Net) (name : String) (fs : FS)
    (target : List String) (url : String) (evs : List Event) (e : PyError) :
    headPhase cfg net name fs target url ≠ .fail evs e := by
  intro h
  rcases h1 : fs.size? target with _ | sz
  · simp [headPhase, h1] at h
  · cases h2 : cfg.no_head_request
    · rcases h3 : net.head url with _ | ⟨_ | n⟩
      · simp [headPhase, h1, h2, h3] at h
      · simp [headPhase, h1, h2, h3] at h
      · by_cases hn : n = sz
        · simp [headPhase, h1, h2, h3, is_size_equal, hn] at h
        · cases hv : cfg.verbose <;>
            simp [headPhase, h1, h2, h3, is_size_equal, hn, hv] at h
    · simp [headPhase, h1, h2] at h

/-- Once the HEAD phase proceeds, the GET request is issued and every event
of the HEAD phase stays in the file's trace. -/
theorem downloadFile_proceed_get (cfg : Config) (net : Net) (name : String)
    (fs : FS) (filepath : List String) (url : String) (evs : List Event) (cs : Bool)
    (hp : headPhase cfg net name fs (cfg.destination ++ filepath) url
      = .proceed evs cs) :
    (∀ x ∈ evs, x ∈ (downloadFile cfg net name fs filepath url).events)
      ∧ Event.getRequest url ∈ (downloadFile cfg net name fs filepath url).events := by
  cases hok : (net.get url).ok
  · have hd : downloadFile cfg net name fs filepath url
        = ⟨(if cfg.verbose = true
              then [Event.log (lookingMsg (cfg.destination ++ filepath))] else [])
            ++ (evs ++ [Event.getRequest url]), fs, some (.httpError url)⟩ := by
      simp [downloadFile, hp, hok]
    rw [hd]
    exact ⟨fun x hx => by simp [hx], by simp⟩
  · rcases hsz : fs.size? (cfg.destination ++ filepath) with _ | lfs
    · have hd : downloadFile cfg net name fs filepath url
          = finishDownload cfg (cfg.destination ++ filepath) url (net.get url)
              ((if cfg.verbose = true
                  then [Event.log (lookingMsg (cfg.destination ++ filepath))] else [])
                ++ (evs ++ [Event.getRequest url])) fs := by
        simp [downloadFile, hp, hok, hsz]
      rw [hd]
      exact ⟨fun x hx => mem_finishDownload (by simp [hx]) _ _ _ _ _,
        mem_finishDownload (by simp) _ _ _ _ _⟩
    · cases cs
      · rcases hcl : (net.get url).content_length with _ | m
        · cases hv : cfg.verbose
          · have hd : downloadFile cfg net name fs filepath url
                = ⟨(if cfg.verbose = true
                      then [Event.log (lookingMsg (cfg.destination ++ filepath))]
                      else [])
                    ++ (evs ++ [Event.getRequest url]), fs, some .typeError⟩ := by
              simp [downloadFile, hp, hok, hsz, hcl, hv, is_size_equal]
            rw [hd]
            exact ⟨fun x hx => by simp [hx], by simp⟩
          · have hd : downloadFile cfg net name fs filepath url
                = finishDownload cfg (cfg.destination ++ filepath) url (net.get url)
                    ((if cfg.verbose = true
                        then [Event.log (lookingMsg (cfg.destination ++ filepath))]
                        else [])
                      ++ (evs ++ Event.getRequest url
                        :: [Event.log (noLengthMsg name)])) fs := by
              simp [downloadFile, hp, hok, hsz, hcl, hv]
            rw [hd]
            exact ⟨fun x hx => mem_finishDownload (by simp [hx]) _ _ _ _ _,
              mem_finishDownload (by simp) _ _ _ _ _⟩
        · by_cases hm : m = lfs
          · have hd : downloadFile cfg net name fs filepath url
                = ⟨(if cfg.verbose = true
                      then [Event.log (lookingMsg (cfg.destination ++ filepath))]
                      else [])
                    ++ (evs ++ Event.getRequest url
                      :: [Event.log (sizeMatchMsg name)]), fs, none⟩ := by
              simp [downloadFile, hp, hok, hsz, hcl, is_size_equal, hm]
            rw [hd]
            exact ⟨fun x hx => by simp [hx], by simp⟩
          · cases hv : cfg.verbose
            · have hd : downloadFile cfg net name fs filepath url
                  = finishDownload cfg (cfg.destination ++ filepath) url (net.get url)
                      ((if cfg.verbose = true
                          then [Event.log (lookingMsg (cfg.destination ++ filepath))]
                          else [])
                        ++ (evs ++ [Event.getRequest url])) fs := by
                simp [downloadFile, hp, hok, hsz, hcl, is_size_equal, hm, hv]
              rw [hd]
              exact ⟨fun x hx => mem_finishDownload (by simp [hx]) _ _ _ _ _,
                mem_finishDownload (by simp) _ _ _ _ _⟩
            · have hd : downloadFile cfg net name fs filepath url
                  = finishDownload cfg (cfg.destination ++ filepath) url (net.get url)
                      ((if cfg.verbose = true
                          then [Event.log (lookingMsg (cfg.destination ++ filepath))]
                          else [])
                        ++ (evs ++ Event.getRequest url
                          :: [Event.log (sizeDifferMsg name)])) fs := by
                simp [downloadFile, hp, hok, hsz, hcl, is_size_equal, hm, hv]
              rw [hd]
              exact ⟨fun x hx => mem_finishDownload (by simp [hx]) _ _ _ _ _,
                mem_finishDownload (by simp) _ _ _ _ _⟩
      · have hd : downloadFile cfg net name fs filepath url
            = finishDownload cfg (cfg.destination ++ filepath) url (net.get url)
                ((if cfg.verbose = true
                    then [Event.log (lookingMsg (cfg.destination ++ filepath))]
                    else [])
                  ++ (evs ++ [Event.getRequest url])) fs := by
          simp [downloadFile, hp, hok, hsz]
        rw [hd]
        exact ⟨fun x hx => mem_finishDownload (by simp [hx]) _ _ _ _ _,
          mem_finishDownload (by simp) _ _ _ _ _⟩

/-- C7: a non-2xx status on the main GET raises the HTTP error — for a file
whose GET fails, the GET was issued exactly when the outcome is that error,
and the GET is never retried (at most one GET event); the error aborts the
remaining files of the model and the remaining models of the run; a failed
HEAD probe instead is recovered: the run falls back to the full GET,
logging the fallback when verbose. -/
theorem C7_get_fatal_head_recovered (cfg : Config) (net : Net) (name : String)
    (fs : FS) (filepath : List String) (url : String)
    (rest : List (List String × String)) (m : ModelResource)
    (mrest : List ModelResource) (e : PyError) (sz : Nat) :
    ((net.get url).ok = false →
        ((Event.getRequest url ∈ (downloadFile cfg net name fs filepath url).events
            ↔ (downloadFile cfg net name fs filepath url).err
                = some (.httpError url))
          ∧ (downloadFile cfg net name fs filepath url).events.count
              (Event.getRequest url) ≤ 1))
      ∧ ((downloadFile cfg net name fs filepath url).err = some e →
          runFiles cfg net name ((filepath, url) :: rest) fs
            = downloadFile cfg net name fs filepath url)
      ∧ (excluded cfg m = false → (download cfg net m fs).err = some e →
          runModels cfg net (m :: mrest) fs
            = ⟨(if cfg.verbose then [.log (newlineName m.name)] else [])
                ++ (download cfg net m fs).events, (download cfg net m fs).fs,
                some e⟩)
      ∧ (fs.size? (cfg.destination ++ filepath) = some sz →
          cfg.no_head_request = false → net.head url = .failure →
            Event.getRequest url ∈ (downloadFile cfg net name fs filepath url).events
              ∧ (cfg.verbose = true →
                  Event.log (headFailMsg name)
                    ∈ (downloadFile cfg net name fs filepath url).events)) := by
  refine ⟨?_, ?_, ?_, ?_⟩
  · intro hok
    have hben := headPhase_events_probeOrLog cfg net name fs
      (cfg.destination ++ filepath) url
    rcases hp : headPhase cfg net name fs (cfg.destination ++ filepath) url
      with evs | ⟨evs, cs⟩ | ⟨evs, e'⟩
    · rw [hp] at hben
      simp only [HeadPhase.events] at hben
      have hd : downloadFile cfg net name fs filepath url
          = ⟨(if cfg.verbose = true
                then [Event.log (lookingMsg (cfg.destination ++ filepath))] else [])
              ++ evs, fs, none⟩ := by
        simp [downloadFile, hp]
      rw [hd]
      have hnm : Event.getRequest url
          ∉ (if cfg.verbose = true
              then [Event.log (lookingMsg (cfg.destination ++ filepath))] else [])
            ++ evs := by
        intro hmem
        rcases List.mem_append.mp hmem with h | h
        · cases hv : cfg.verbose <;> rw [hv] at h <;> simp at h
        · have := hben _ h
          simp [Event.isProbeOrLog] at this
      refine ⟨iff_of_false hnm (by simp), ?_⟩
      rw [List.count_eq_zero.mpr hnm]
      omega
    · rw [hp] at hben
      simp only [HeadPhase.events] at hben
      have hd : downloadFile cfg net name fs filepath url
          = ⟨(if cfg.verbose = true
                then [Event.log (lookingMsg (cfg.destination ++ filepath))] else [])
              ++ (evs ++ [Event.getRequest url]), fs, some (.httpError url)⟩ := by
        simp [downloadFile, hp, hok]
      rw [hd]
      have hc0 : ((if cfg.verbose = true
          then [Event.log (lookingMsg (cfg.destination ++ filepath))]
          else []).count (Event.getRequest url)) = 0 := by
        cases hv : cfg.verbose <;> simp
      have hc1 : evs.count (Event.getRequest url) = 0 := by
        refine List.count_eq_zero.mpr fun hmem => ?_
        have := hben _ hmem
        simp [Event.isProbeOrLog] at this
      refine ⟨iff_of_true (by simp) rfl, ?_⟩
      simp [List.count_append, hc0, hc1]
    · exact absurd hp (headPhase_ne_fail cfg net name fs _ url evs e')
  · intro h
    simp [runFiles, h]
  · intro hx h
    simp [runModels, hx, h]
  · intro hsz hnh hhead
    have hp : headPhase cfg net name fs (cfg.destination ++ filepath) url
        = .proceed (Event.headRequest url ::
            (if cfg.verbose = true then [Event.log (headFailMsg name)] else []))
          false := by
      simp [headPhase, hsz, hnh, hhead]
    obtain ⟨q1, q2⟩ := downloadFile_proceed_get cfg net name fs filepath url _ _ hp
    exact ⟨q2, fun hv => q1 _ (by simp [hv])⟩

/-- Witness for C7: server whose HEAD fails and whose GET answers non-2xx,
against an existing file; the GET error escapes, no further file or model
is processed, and the HEAD failure itself fell back to the GET. -/
theorem C7_get_fatal_head_recovered_witness :
    ((Event.getRequest "http://u/x"
          ∈ (downloadFile cfgPlain netGetBad "X" fsX ["x.bin"] "http://u/x").events
        ↔ (downloadFile cfgPlain netGetBad "X" fsX ["x.bin"] "http://u/x").err
            = some (.httpError "http://u/x"))
      ∧ (downloadFile cfgPlain netGetBad "X" fsX ["x.bin"] "http://u/x").events.count
          (Event.getRequest "http://u/x") ≤ 1)
    ∧ (runFiles cfgPlain netGetBad "X" [(["x.bin"], "http://u/x")] fsX
        = downloadFile cfgPlain netGetBad "X" fsX ["x.bin"] "http://u/x")
    ∧ (runModels cfgPlain netGetBad [mresX] fsX
        = ⟨(if cfgPlain.verbose then [.log (newlineName mresX.name)] else [])
            ++ (download cfgPlain netGetBad mresX fsX).events,
            (download cfgPlain netGetBad mresX fsX).fs,
            some (.httpError "http://u/x")⟩)
    ∧ (Event.getRequest "http://u/x"
          ∈ (downloadFile cfgPlain netGetBad "X" fsX ["x.bin"] "http://u/x").events
        ∧ (cfgPlain.verbose = true →
            Event.log (headFailMsg "X")
              ∈ (downloadFile cfgPlain netGetBad "X" fsX ["x.bin"] "http://u/x").events)) := by
  obtain ⟨p1, p2, p3, p4⟩ := C7_get_fatal_head_recovered cfgPlain netGetBad "X" fsX
    ["x.bin"] "http://u/x" [] mresX [] (.httpError "http://u/x") 100
  exact ⟨p1 rfl, p2 (by decide), p3 rfl (by decide), p4 rfl rfl rfl⟩

/-- Where `mkdir(parents=True)` happens in `finishDownload`: only in a real
run, only on the target's parent, and it adds exactly the parent's
ancestor chain to the directories. -/
theorem mkdir_in_finish (cfg : Config) (t : List String) (u : String)
    (r : GetResponse) (ev : List Event) (fs : FS) (d : List String)
    (hev : ∀ e ∈ ev, e.isFsChange = false)
    (hw : Event.mkdirParents d ∈ (finishDownload cfg t u r ev fs).events) :
    d = t.dropLast ∧ cfg.dry_run = false
      ∧ (finishDownload cfg t u r ev fs).fs.dirs = dirChain t.dropLast ++ fs.dirs := by
  cases hdr : cfg.dry_run
  · have hw' : Event.mkdirParents d ∈ ev ∨ d = t.dropLast := by
      simpa [finishDownload, hdr] using hw
    rcases hw' with h | h
    · exact absurd (hev _ h) (by simp [Event.isFsChange])
    · subst h
      refine ⟨rfl, rfl, ?_⟩
      simp [finishDownload, hdr, FS.writeFile, FS.mkdir_p]
  · have h : Event.mkdirParents d ∈ ev := by
      simpa [finishDownload, hdr] using hw
    exact absurd (hev _ h) (by simp [Event.isFsChange])

/-- The destination directory is an ancestor of every destination file's
parent, so its chain of created directories holds the destination. -/
theorem destination_mem_dirChain (dest fp : List String) (hfp : fp ≠ []) :
    dest ∈ dirChain (dest ++ fp).dropLast := by
  rw [List.dropLast_append_of_ne_nil dest hfp]
  simp only [dirChain, List.mem_map, List.mem_range]
  refine ⟨dest.length, ?_, List.take_left dest fp.dropLast⟩
  simp only [List.length_append]
  omega

/-- Every directory-creation event of `download` targets the current
file's parent, happens only in a real run, and leaves the directories
as that parent's ancestor chain on top of the previous ones. -/
theorem downloadFile_mkdir_events (cfg : Config) (net : Net) (name : String)
    (fs : FS) (filepath : List String) (url : String) (d : List String)
    (hw : Event.mkdirParents d ∈ (downloadFile cfg net name fs filepath url).events) :
    d = (cfg.destination ++ filepath).dropLast ∧ cfg.dry_run = false
      ∧ (downloadFile cfg net name fs filepath url).fs.dirs
          = dirChain (cfg.destination ++ filepath).dropLast ++ fs.dirs := by
  have hben := headPhase_events_probeOrLog cfg net name fs
    (cfg.destination ++ filepath) url
  rcases hp : headPhase cfg net name fs (cfg.destination ++ filepath) url
    with evs | ⟨evs, cs⟩ | ⟨evs, e'⟩
  · rw [hp] at hben
    simp only [HeadPhase.events] at hben
    have hd : downloadFile cfg net name fs filepath url
        = ⟨(if cfg.verbose = true
              then [Event.log (lookingMsg (cfg.destination ++ filepath))] else [])
            ++ evs, fs, none⟩ := by
      simp [downloadFile, hp]
    rw [hd] at hw
    exfalso
    rcases List.mem_append.mp hw with h | h
    · cases hv : cfg.verbose <;> rw [hv] at h <;> simp at h
    · have := hben _ h
      simp [Event.isProbeOrLog] at this
  · rw [hp] at hben
    simp only [HeadPhase.events] at hben
    have hbx : ∀ tail : List Event, (∀ e ∈ tail, e.isFsChange = false) →
        ∀ e ∈ (if cfg.verbose = true
            then [Event.log (lookingMsg (cfg.destination ++ filepath))] else [])
          ++ (evs ++ (Event.getRequest url :: tail)), e.isFsChange = false := by
      intro tail htail e he
      rcases List.mem_append.mp he with h | h
      · exact ev0_fsChange cfg.verbose _ e h
      · rcases List.mem_append.mp h with h2 | h2
        · exact isProbeOrLog_not_fsChange (hben e h2)
        · rcases List.mem_cons.mp h2 with rfl | h3
          · simp [Event.isFsChange]
          · exact htail e h3
    cases hok : (net.get url).ok
    · have hd : downloadFile cfg net name fs filepath url
          = ⟨(if cfg.verbose = true
                then [Event.log (lookingMsg (cfg.destination ++ filepath))] else [])
              ++ (evs ++ [Event.getRequest url]), fs, some (.httpError url)⟩ := by
        simp [downloadFile, hp, hok]
      rw [hd] at hw
      exact absurd (hbx [] (by simp) _ hw) (by simp [Event.isFsChange])
    · rcases hsz : fs.size? (cfg.destination ++ filepath) with _ | lfs
      · have hd : downloadFile cfg net name fs filepath url
            = finishDownload cfg (cfg.destination ++ filepath) url (net.get url)
                ((if cfg.verbose = true
                    then [Event.log (lookingMsg (cfg.destination ++ filepath))]
                    else [])
                  ++ (evs ++ [Event.getRequest url])) fs := by
          simp [downloadFile, hp, hok, hsz]
        rw [hd] at hw ⊢
        exact mkdir_in_finish cfg _ url (net.get url) _ fs d (hbx [] (by simp)) hw
      · cases cs
        · rcases hcl : (net.get url).content_length with _ | m
          · cases hv : cfg.verbose
            · have hd : downloadFile cfg net name fs filepath url
                  = ⟨(if cfg.verbose = true
                        then [Event.log (lookingMsg (cfg.destination ++ filepath))]
                        else [])
                      ++ (evs ++ [Event.getRequest url]), fs, some .typeError⟩ := by
                simp [downloadFile, hp, hok, hsz, hcl, hv, is_size_equal]
              rw [hd] at hw
              exact absurd (hbx [] (by simp) _ hw) (by simp [Event.isFsChange])
            · have hd : downloadFile cfg net name fs filepath url
                  = finishDownload cfg (cfg.destination ++ filepath) url (net.get url)
                      ((if cfg.verbose = true
                          then [Event.log (lookingMsg (cfg.destination ++ filepath))]
                          else [])
                        ++ (evs ++ Event.getRequest url
                          :: [Event.log (noLengthMsg name)])) fs := by
                simp [downloadFile, hp, hok, hsz, hcl, hv]
              rw [hd] at hw ⊢
              exact mkdir_in_finish cfg _ url (net.get url) _ fs d
                (hbx [Event.log (noLengthMsg name)] (by simp [Event.isFsChange])) hw
          · by_cases hm : m = lfs
            · have hd : downloadFile cfg net name fs filepath url
                  = ⟨(if cfg.verbose = true
                        then [Event.log (lookingMsg (cfg.destination ++ filepath))]
                        else [])
                      ++ (evs ++ Event.getRequest url
                        :: [Event.log (sizeMatchMsg name)]), fs, none⟩ := by
                simp [downloadFile, hp, hok, hsz, hcl, is_size_equal, hm]
              rw [hd] at hw
              exact absurd
                (hbx [Event.log (sizeMatchMsg name)] (by simp [Event.isFsChange]) _ hw)
                (by simp [Event.isFsChange])
            · cases hv : cfg.verbose
              · have hd : downloadFile cfg net name fs filepath url
                    = finishDownload cfg (cfg.destination ++ filepath) url (net.get url)
                        ((if cfg.verbose = true
                            then [Event.log (lookingMsg (cfg.destination ++ filepath))]
                            else [])
                          ++ (evs ++ [Event.getRequest url])) fs := by
                  simp [downloadFile, hp, hok, hsz, hcl, is_size_equal, hm, hv]
                rw [hd] at hw ⊢
                exact mkdir_in_finish cfg _ url (net.get url) _ fs d
                  (hbx [] (by simp)) hw
              · have hd : downloadFile cfg net name fs filepath url
                    = finishDownload cfg (cfg.destination ++ filepath) url (net.get url)
                        ((if cfg.verbose = true
                            then [Event.log (lookingMsg (cfg.destination ++ filepath))]
                            else [])
                          ++ (evs ++ Event.getRequest url
                            :: [Event.log (sizeDifferMsg name)])) fs := by
                  simp [downloadFile, hp, hok, hsz, hcl, is_size_equal, hm, hv]
                rw [hd] at hw ⊢
                exact mkdir_in_finish cfg _ url (net.get url) _ fs d
                  (hbx [Event.log (sizeDifferMsg name)] (by simp [Event.isFsChange])) hw
        · have hd : downloadFile cfg net name fs filepath url
              = finishDownload cfg (cfg.destination ++ filepath) url (net.get url)
                  ((if cfg.verbose = true
                      then [Event.log (lookingMsg (cfg.destination ++ filepath))]
                      else [])
                    ++ (evs ++ [Event.getRequest url])) fs := by
            simp [downloadFile, hp, hok, hsz]
          rw [hd] at hw ⊢
          exact mkdir_in_finish cfg _ url (net.get url) _ fs d (hbx [] (by simp)) hw
  · exact absurd hp (headPhase_ne_fail cfg net name fs _ url evs e')

/-- C8, counterexample: with a destination directory that does not exist
yet and a file in a subdirectory, the run creates the destination directory
itself (`mkdir(parents=True)` creates every missing ancestor), contradicting
the claim that it is never created and must pre-exist. -/
theorem C8_counterexample :
    cfgPlain.destination ∉ (FS.mk [] []).dirs
      ∧ cfgPlain.destination ∈ (mainRun cfgPlain netEq catSub (FS.mk [] [])).fs.dirs := by
  exact ⟨by simp [FS.mk], by decide⟩

/-- C8 as amended: every directory-creation event targets the parent of the
current destination file; it only happens in a real run, and it creates the
parent's whole ancestor chain — including the destination directory itself,
which therefore need not pre-exist. -/
theorem C8_amended_parents_created (cfg : Config) (net : Net) (name : String)
    (fs : FS) (filepath : List String) (url : String) (d : List String)
    (hfp : filepath ≠ [])
    (hw : Event.mkdirParents d ∈ (downloadFile cfg net name fs filepath url).events) :
    d = (cfg.destination ++ filepath).dropLast
      ∧ cfg.dry_run = false
      ∧ cfg.destination ∈ (downloadFile cfg net name fs filepath url).fs.dirs := by
  obtain ⟨r1, r2, r3⟩ := downloadFile_mkdir_events cfg net name fs filepath url d hw
  refine ⟨r1, r2, ?_⟩
  rw [r3]
  exact List.mem_append_left _ (destination_mem_dirChain cfg.destination filepath hfp)

/-- Witness for the amended C8: destination `d` missing, file `sub/x.bin`;
the run's mkdir event targets `d/sub` and creates `d` itself. -/
theorem C8_amended_parents_created_witness :
    (["sub", "x.bin"] : List String) ≠ []
      ∧ Event.mkdirParents ["d", "sub"]
          ∈ (downloadFile cfgPlain netEq "S" (FS.mk [] []) ["sub", "x.bin"]
              "http://u/s").events
      ∧ ((["d", "sub"] : List String)
            = (cfgPlain.destination ++ ["sub", "x.bin"]).dropLast
        ∧ cfgPlain.dry_run = false
        ∧ cfgPlain.destination
            ∈ (downloadFile cfgPlain netEq "S" (FS.mk [] []) ["sub", "x.bin"]
                "http://u/s").fs.dirs) := by
  refine ⟨by decide, by decide, ?_⟩
  exact C8_amended_parents_created cfgPlain netEq "S" (FS.mk [] []) ["sub", "x.bin"]
    "http://u/s" ["d", "sub"] (by decide) (by decide)

end DLM
